import Mathlib

/-!
Verification development for the bronze-loader and data-generator scripts
of the APAC-DIA-Training-DE repository.

The pandas DataFrame is modelled as a list of (column name, dtype) pairs
together with row-major values; `Val.vnull` stands for NaN/NaT/None.
File readers are modelled as abstract functions so that theorems quantify
over every possible parse outcome.
-/

set_option maxHeartbeats 1000000
set_option maxRecDepth 4000

inductive Val where
  | vnull : Val
  | vstr : String → Val
  | vint : Int → Val
  | vdt : Nat → Nat → Nat → Nat → Nat → Nat → Val
deriving DecidableEq, Repr

inductive Dtype where
  | object
  | datetime64
  | int64
  | float64
  | boolDt
deriving DecidableEq, Repr

structure DataFrame where
  cols : List (String × Dtype)
  rows : List (List Val)
deriving DecidableEq, Repr

/-- Model of `pd.DataFrame()`: no columns, no rows. -/
def emptyDF : DataFrame := { cols := [], rows := [] }

/-- Model of `len(df)`: the number of rows. -/
def DataFrame.nrows (df : DataFrame) : Nat := df.rows.length

/-- Model of `df.empty`: true when either axis has length zero. -/
def DataFrame.isEmptyDF (df : DataFrame) : Bool := df.cols.isEmpty || df.rows.isEmpty

def insertName (acc : List String) (n : String) : List String :=
  if acc.contains n then acc else acc ++ [n]

/-- Column names of `pd.concat`: union of input column names in order of
first appearance. -/
def unionNames (dfs : List DataFrame) : List String :=
  dfs.foldl (fun acc df => (df.cols.map Prod.fst).foldl insertName acc) []

def dtypeAt (df : DataFrame) (n : String) : Option Dtype :=
  (df.cols.find? (fun c => c.1 == n)).map Prod.snd

/-- Result dtype of a concatenated column: kept when every input frame has
the column with one common dtype, degraded to `object` otherwise (the
pandas result in the mixed/missing case is approximated by `object`). -/
def combinedDtype (dfs : List DataFrame) (n : String) : Dtype :=
  match dfs.filterMap (fun df => dtypeAt df n) with
  | [] => Dtype.object
  | d :: rest =>
    if rest.all (fun x => x == d) && dfs.all (fun df => (dtypeAt df n).isSome) then d
    else Dtype.object

/-- Reindex one row of one input frame against the union column list;
columns the frame does not have are filled with null (NaN). -/
def alignRow (names : List String) (df : DataFrame) (r : List Val) : List Val :=
  names.map (fun n =>
    match df.cols.findIdx? (fun c => c.1 == n) with
    | some j => r.getD j Val.vnull
    | none => Val.vnull)

/-- Model of `pd.concat(dfs, ignore_index=True)`. -/
def concatIgnoreIndex (dfs : List DataFrame) : DataFrame :=
  let names := unionNames dfs
  { cols := names.map (fun n => (n, combinedDtype dfs n)),
    rows := dfs.flatMap (fun df => df.rows.map (alignRow names df)) }

/-- Model of the thread pool's completed tasks (load_to_bronze.py line 82):
`sched` is the order in which the pool happens to finish the submitted
indices; each completion carries its submission index and the read result. -/
def poolResults (read : String → DataFrame) (files : List String) (sched : List Nat) :
    List (Nat × DataFrame) :=
  sched.map (fun i => (i, read (files.getD i "")))

/-- Model of `executor.map(read_file, file_list)`: results are keyed by
submission index and yielded back in submission order, whatever the
completion order `sched` was. -/
def collectSubmissionOrder (read : String → DataFrame) (files : List String)
    (sched : List Nat) : List DataFrame :=
  (List.range files.length).map (fun i =>
    match (poolResults read files sched).find? (fun p => p.1 == i) with
    | some p => p.2
    | none => emptyDF)

/-- Embedding of `load_entity` (load_to_bronze.py lines 75-103): map
`read_file` over the file list with a worker pool, keep the non-empty
frames in yielded (= submission) order, and concatenate with a fresh
index; `pd.DataFrame()` when nothing survives.  `workers = 0` models the
`ValueError` raised by `ThreadPoolExecutor(max_workers=0)` (`none`).
`read` stands for `read_file` on a fixed filesystem state. -/
def load_entity (read : String → DataFrame) (files : List String) (workers : Nat)
    (sched : List Nat) : Option DataFrame :=
  if workers == 0 then none
  else
    let dfs := (collectSubmissionOrder read files sched).filter (fun df => !df.isEmptyDF)
    some (if dfs.isEmpty then emptyDF else concatIgnoreIndex dfs)

/-- Sequential reference definition, following the spec sentence: read each
file in list order, drop the empty results, concatenate the rest with a
fresh integer index. -/
def load_entity_seq_spec (read : String → DataFrame) (files : List String) : DataFrame :=
  let dfs := (files.map read).filter (fun df => !df.isEmptyDF)
  if dfs.isEmpty then emptyDF else concatIgnoreIndex dfs

theorem find_poolResults (read : String → DataFrame) (files : List String)
    (sched : List Nat) (i : Nat) (hi : i ∈ sched) :
    (poolResults read files sched).find? (fun p => p.1 == i) =
      some (i, read (files.getD i "")) := by
  induction sched with
  | nil => cases hi
  | cons j rest ih =>
    by_cases hj : j = i
    · subst hj
      simp [poolResults, List.find?]
    · have hmem : i ∈ rest := by
        cases hi with
        | head => exact absurd rfl hj
        | tail _ h => exact h
      have hbeq : (j == i) = false := by simp [hj]
      simp only [poolResults, List.map_cons]
      rw [List.find?_cons_of_neg _ (by simp [hbeq])]
      exact ih hmem

theorem range_map_getD (g : String → DataFrame) (files : List String) :
    (List.range files.length).map (fun i => g (files.getD i "")) = files.map g := by
  induction files with
  | nil => simp
  | cons a l ih =>
    rw [List.length_cons, List.range_succ_eq_map]
    simp only [List.map_cons, List.map_map, List.getD_cons_zero]
    refine congrArg (g a :: ·) ?_
    calc (List.range l.length).map ((fun i => g ((a :: l).getD i "")) ∘ Nat.succ)
        = (List.range l.length).map (fun i => g (l.getD i "")) := by
          refine List.map_congr_left (fun i _ => ?_)
          simp [Function.comp, List.getD_cons_succ]
      _ = l.map g := ih

theorem collect_eq_map (read : String → DataFrame) (files : List String)
    (sched : List Nat) (hs : ∀ i, i < files.length → i ∈ sched) :
    collectSubmissionOrder read files sched = files.map read := by
  unfold collectSubmissionOrder
  rw [← range_map_getD read files]
  refine List.map_congr_left (fun i hi => ?_)
  have hlt : i < files.length := List.mem_range.mp hi
  rw [find_poolResults read files sched i (hs i hlt)]

/-- Claim C1: for every completion schedule covering the submitted indices
and every worker count of at least 1, `load_entity` returns exactly the
sequential reference result (read each file in list order, drop empties,
concatenate); the result is independent of the worker count and of the
completion order. -/
theorem C1_load_entity_refines_seq (read : String → DataFrame) (files : List String)
    (workers : Nat) (sched : List Nat) (hw : 1 ≤ workers)
    (hs : ∀ i, i < files.length → i ∈ sched) :
    load_entity read files workers sched = some (load_entity_seq_spec read files) := by
  have hw0 : (workers == 0) = false := by
    simp only [beq_eq_false_iff_ne, ne_eq]
    omega
  unfold load_entity load_entity_seq_spec
  rw [collect_eq_map read files sched hs, hw0]
  simp

def readW : String → DataFrame := fun p =>
  if p == "a.csv" then { cols := [("x", Dtype.int64)], rows := [[Val.vint 1]] } else emptyDF

def filesW : List String := ["a.csv", "b.csv"]

theorem C1_witness :
    load_entity readW filesW 2 [1, 0] = some (load_entity_seq_spec readW filesW) :=
  C1_load_entity_refines_seq readW filesW 2 [1, 0] (by decide) (by decide)

theorem nrows_concat (dfs : List DataFrame) :
    (concatIgnoreIndex dfs).nrows = (dfs.map DataFrame.nrows).sum := by
  unfold concatIgnoreIndex DataFrame.nrows
  simp only [List.length_flatMap]
  refine congrArg List.sum ?_
  refine List.map_congr_left (fun df _ => ?_)
  simp

/-- Claim C3: the `load_entity` result is the fan-in of the per-file reads:
its row count is the sum of the row counts of the non-empty per-file
frames, and when every per-file frame is empty it returns an empty
DataFrame. -/
theorem C3_fan_in_row_count (read : String → DataFrame) (files : List String)
    (workers : Nat) (sched : List Nat) (hw : 1 ≤ workers)
    (hs : ∀ i, i < files.length → i ∈ sched) :
    ((load_entity read files workers sched).getD emptyDF).nrows
        = (((files.map read).filter (fun df => !df.isEmptyDF)).map DataFrame.nrows).sum
      ∧ (((files.map read).all (fun df => df.isEmptyDF)) = true →
          load_entity read files workers sched = some emptyDF) := by
  have hw0 : (workers == 0) = false := by
    simp only [beq_eq_false_iff_ne, ne_eq]
    omega
  unfold load_entity
  rw [collect_eq_map read files sched hs, hw0]
  simp only [Bool.false_eq_true, if_false]
  constructor
  · by_cases hk : ((files.map read).filter (fun df => !df.isEmptyDF)).isEmpty
    · have : (files.map read).filter (fun df => !df.isEmptyDF) = [] :=
        List.isEmpty_iff.mp hk
      simp [this, emptyDF, DataFrame.nrows]
    · simp only [hk, if_false, Option.getD_some]
      exact nrows_concat _
  · intro hall
    have hnil : (files.map read).filter (fun df => !df.isEmptyDF) = [] := by
      refine List.filter_eq_nil_iff.mpr (fun df hdf => ?_)
      have := List.all_eq_true.mp hall df hdf
      simp [this]
    simp [hnil]

theorem C3_witness :
    ((load_entity readW filesW 2 [1, 0]).getD emptyDF).nrows
      = (((filesW.map readW).filter (fun df => !df.isEmptyDF)).map DataFrame.nrows).sum :=
  (C3_fan_in_row_count readW filesW 2 [1, 0] (by decide) (by decide)).1

/-- Characters after the last occurrence of `sep`, when one occurs. -/
def afterLastSep (sep : Char) : List Char → Option (List Char)
  | [] => none
  | c :: rest =>
    match afterLastSep sep rest with
    | some e => some e
    | none => if c == sep then some rest else none

/-- Model of `os.path.basename` / `Path.name` for slash-separated paths. -/
def basename (p : String) : String :=
  match afterLastSep '/' p.data with
  | some e => String.mk e
  | none => p

/-- Characters after the last dot of a list, when a dot occurs. -/
def afterLastDot : List Char → Option (List Char)
  | [] => none
  | c :: rest =>
    match afterLastDot rest with
    | some e => some e
    | none => if c == '.' then some rest else none

/-- Model of `os.path.splitext(...)[1].lower()`: the extension of the
basename, lowercased; leading dots of a hidden file do not start an
extension. -/
def extOf (p : String) : String :=
  let b := (basename p).data
  match afterLastDot (b.dropWhile (fun c => c == '.')) with
  | some e => String.mk ('.' :: e.map Char.toLower)
  | none => ""

def listStartsWith : List Char → List Char → Bool
  | _, [] => true
  | [], _ :: _ => false
  | a :: as, b :: bs => a == b && listStartsWith as bs

def listContainsSub : List Char → List Char → Bool
  | [], needle => needle.isEmpty
  | h :: t, needle => listStartsWith (h :: t) needle || listContainsSub t needle

/-- Model of the Python `in` operator on strings. -/
def strContains (hay needle : String) : Bool := listContainsSub hay.data needle.data

/-- One line appended to load_errors.log: the `datetime.now()` timestamp,
the offending file, and the exception text. -/
structure LogEntry where
  time : Nat
  path : String
  msg : String
deriving DecidableEq, Repr

/-- Parse outcome of one line of a JSONL events file. -/
inductive JsonLine where
  | blank
  | bad (err : String)
  | good (envelope payload : List (String × Val))
deriving DecidableEq, Repr

/-- Outcome of `pd.read_json(filepath, lines=True)`: success, a
`ValueError` (caught, triggering the `json.load` fallback), or any other
exception (propagating to the caller). -/
inductive JsonOutcome where
  | ok (df : DataFrame)
  | valueError (msg : String)
  | raiseOther (msg : String)
deriving DecidableEq, Repr

/-- Abstract filesystem/parser state: what each third-party reader would
produce for each path, plus the current clock. `Except.error` models a
raised exception. -/
structure FileSys where
  now : Nat
  csvRead : String → Except String DataFrame
  parquetRead : String → Except String DataFrame
  excelRead : String → Except String DataFrame
  jsonLinesRead : String → JsonOutcome
  jsonLoadRead : String → Except String DataFrame
  linesRead : String → Except String (List JsonLine)

/-- Model of `{**envelope, **payload}`: envelope keys first with payload
values overriding, then the remaining payload keys. -/
def dictMerge (a b : List (String × Val)) : List (String × Val) :=
  (a.map (fun kv =>
    match b.find? (fun kv2 => kv2.1 == kv.1) with
    | some kv2 => (kv.1, kv2.2)
    | none => kv))
  ++ b.filter (fun kv2 => !(a.any (fun kv => kv.1 == kv2.1)))

/-- Model of `pd.DataFrame(records)` for a list of dicts: columns are the
union of keys in order of first appearance, missing keys become null. -/
def dfOfRecords (recs : List (List (String × Val))) : DataFrame :=
  let names := recs.foldl (fun acc r => (r.map Prod.fst).foldl insertName acc) []
  { cols := names.map (fun n => (n, Dtype.object)),
    rows := recs.map (fun r =>
      names.map (fun n =>
        match r.find? (fun kv => kv.1 == n) with
        | some kv => kv.2
        | none => Val.vnull)) }

/-- Per-line loop of `read_events_jsonl` (load_to_bronze.py lines 30-41):
blank lines are skipped, undecodable lines are logged (with their
1-based line number) and skipped, good lines are flattened. -/
def eventsFold (path : String) (now : Nat) :
    Nat → List JsonLine → List (List (String × Val)) × List LogEntry
  | _, [] => ([], [])
  | i, ln :: rest =>
    let r := eventsFold path now (i + 1) rest
    match ln with
    | JsonLine.blank => r
    | JsonLine.bad e =>
      (r.1, { time := now, path := path, msg := "line " ++ toString i ++ ": " ++ e } :: r.2)
    | JsonLine.good env pay => (dictMerge env pay :: r.1, r.2)

/-- Embedding of `read_events_jsonl` (load_to_bronze.py lines 26-42).  A
failure to open/read the file itself propagates (to be caught by
`read_file`); individual bad lines are logged and skipped. -/
def read_events_jsonl (fs : FileSys) (path : String) :
    Except String (DataFrame × List LogEntry) :=
  match fs.linesRead path with
  | Except.error e => Except.error e
  | Except.ok ls =>
    let r := eventsFold path fs.now 1 ls
    Except.ok (dfOfRecords r.1, r.2)

/-- The body of `read_file`'s `try` block (load_to_bronze.py lines 48-67):
dispatch on the lowercased extension; unknown extensions raise
`ValueError(f"Unsupported file type: {ext}")`. -/
def read_file_attempt (fs : FileSys) (path : String) :
    Except String (DataFrame × List LogEntry) :=
  let ext := extOf path
  if ext == ".csv" then (fs.csvRead path).map (fun df => (df, []))
  else if ext == ".parquet" then (fs.parquetRead path).map (fun df => (df, []))
  else if ext == ".json" || ext == ".jsonl" then
    if strContains (basename path) "events" then read_events_jsonl fs path
    else
      match fs.jsonLinesRead path with
      | JsonOutcome.ok df => Except.ok (df, [])
      | JsonOutcome.valueError _ => (fs.jsonLoadRead path).map (fun df => (df, []))
      | JsonOutcome.raiseOther e => Except.error e
  else if ext == ".xls" || ext == ".xlsx" then (fs.excelRead path).map (fun df => (df, []))
  else Except.error ("Unsupported file type: " ++ ext)

/-- Embedding of `read_file` (load_to_bronze.py lines 46-71): the whole
dispatch is wrapped in `try/except Exception`; an exception is turned
into one timestamped log line and an empty DataFrame.  The Lean function
is total: no exception escapes. -/
def read_file (fs : FileSys) (path : String) : DataFrame × List LogEntry :=
  match read_file_attempt fs path with
  | Except.ok r => r
  | Except.error e => (emptyDF, [{ time := fs.now, path := path, msg := e }])

/-- Claim C2: `read_file` never propagates an exception: whenever the
dispatched read raises (including the unsupported-extension
`ValueError`), `read_file` returns the empty DataFrame together with
exactly one timestamped log line for that file, and the file is read at
most once (the result is a function of a single attempt). -/
theorem C2_read_file_catches_all (fs : FileSys) (path : String) (e : String)
    (herr : read_file_attempt fs path = Except.error e) :
    read_file fs path = (emptyDF, [{ time := fs.now, path := path, msg := e }]) := by
  unfold read_file
  rw [herr]

def fsW : FileSys :=
  { now := 7,
    csvRead := fun _ => Except.error "boom",
    parquetRead := fun _ => Except.error "boom",
    excelRead := fun _ => Except.error "boom",
    jsonLinesRead := fun _ => JsonOutcome.raiseOther "boom",
    jsonLoadRead := fun _ => Except.error "boom",
    linesRead := fun _ => Except.error "boom" }

theorem C2_witness :
    read_file fsW "data.txt"
      = (emptyDF, [{ time := 7, path := "data.txt", msg := "Unsupported file type: .txt" }]) :=
  C2_read_file_catches_all fsW "data.txt" "Unsupported file type: .txt" rfl

def twoDigits (a b : Char) : Option Nat :=
  if a.isDigit && b.isDigit then some ((a.toNat - 48) * 10 + (b.toNat - 48)) else none

def fourDigits (a b c d : Char) : Option Nat :=
  match twoDigits a b, twoDigits c d with
  | some hi, some lo => some (hi * 100 + lo)
  | _, _ => none

def isLeap (y : Nat) : Bool := (y % 4 == 0 && y % 100 != 0) || y % 400 == 0

def daysInMonth (y m : Nat) : Nat :=
  if m == 2 then (if isLeap y then 29 else 28)
  else if [4, 6, 9, 11].contains m then 30
  else 31

/-- Model of `strptime(s, '%Y-%m-%dT%H:%M:%S')` followed by `datetime`
construction: a 4-digit year, zero-padded month/day/hour/minute/second
with the literal separators, and calendar-valid field ranges.  Any string
not of this exact shape fails (and is coerced to NaT by
`errors='coerce'`). -/
def parseIsoFmt (s : String) : Option (Nat × Nat × Nat × Nat × Nat × Nat) :=
  match s.data with
  | [y1, y2, y3, y4, '-', m1, m2, '-', d1, d2, 'T', h1, h2, ':', mi1, mi2, ':', s1, s2] =>
    match fourDigits y1 y2 y3 y4, twoDigits m1 m2, twoDigits d1 d2,
          twoDigits h1 h2, twoDigits mi1 mi2, twoDigits s1 s2 with
    | some y, some mo, some d, some h, some mi, some sec =>
      if 1 ≤ mo && mo ≤ 12 && 1 ≤ d && d ≤ daysInMonth y mo
          && h ≤ 23 && mi ≤ 59 && sec ≤ 59 then
        some (y, mo, d, h, mi, sec)
      else none
    | _, _, _, _, _, _ => none
  | _ => none

/-- Elementwise model of `pd.to_datetime(col, format='%Y-%m-%dT%H:%M:%S',
errors='coerce')` on an object column: matching strings become
datetimes, already-datetime values pass through, everything else
(non-matching strings, numbers, nulls) becomes NaT. -/
def coerceVal (v : Val) : Val :=
  match v with
  | Val.vstr s =>
    match parseIsoFmt s with
    | some (y, mo, d, h, mi, sec) => Val.vdt y mo d h mi sec
    | none => Val.vnull
  | Val.vdt y mo d h mi sec => Val.vdt y mo d h mi sec
  | _ => Val.vnull

/-- Embedding of `normalize_datetime_columns` (load_to_bronze.py lines
107-118): every object-dtype column is passed through `pd.to_datetime`
with the fixed ISO format and `errors='coerce'` (so its dtype becomes
datetime64); datetime64 columns are re-coerced, which is the identity on
datetime/NaT values; other dtypes are untouched. -/
def normalize_datetime_columns (df : DataFrame) : DataFrame :=
  { cols := df.cols.map (fun c => if c.2 == Dtype.object then (c.1, Dtype.datetime64) else c),
    rows := df.rows.map (fun r =>
      List.zipWith (fun c v => if c.2 == Dtype.object then coerceVal v else v) df.cols r) }

/-- The values of column number `j` (null-padded on ragged rows). -/
def getCol (df : DataFrame) (j : Nat) : List Val :=
  df.rows.map (fun r => r.getD j Val.vnull)

theorem getD_zipWith {α β γ : Type} (f : α → β → γ) (as : List α) (bs : List β)
    (j : Nat) (da : α) (db : β) (dc : γ) (ha : j < as.length) (hb : j < bs.length) :
    (List.zipWith f as bs).getD j dc = f (as.getD j da) (bs.getD j db) := by
  induction as generalizing bs j with
  | nil => simp at ha
  | cons a as ih =>
    cases bs with
    | nil => simp at hb
    | cons b bs =>
      cases j with
      | zero => simp
      | succ j =>
        simp only [List.zipWith_cons_cons, List.getD_cons_succ]
        exact ih bs j (by simpa using ha) (by simpa using hb)

theorem coerce_textlike_null (v : Val)
    (hv : (match v with
           | Val.vstr s => (parseIsoFmt s).isNone
           | Val.vnull => true
           | _ => false) = true) :
    coerceVal v = Val.vnull := by
  cases v with
  | vstr s =>
    simp only at hv
    cases hps : parseIsoFmt s with
    | none => simp [coerceVal, hps]
    | some t => rw [hps] at hv; simp at hv
  | vnull => rfl
  | vint n => simp at hv
  | vdt y mo d h mi sec => simp at hv

/-- Claim C9: `normalize_datetime_columns` passes every object-dtype
column elementwise through `pd.to_datetime(format='%Y-%m-%dT%H:%M:%S',
errors='coerce')`, so any string not matching that exact format becomes
null; consequently an object column with no matching values (names,
emails, ...) comes out entirely null. -/
theorem C9_normalize_nulls_text (df : DataFrame) (j : Nat) (name : String)
    (hcol : df.cols[j]? = some (name, Dtype.object))
    (hrect : df.rows.all (fun r => r.length == df.cols.length) = true) :
    getCol (normalize_datetime_columns df) j = (getCol df j).map coerceVal
      ∧ (((getCol df j).all (fun v =>
            match v with
            | Val.vstr s => (parseIsoFmt s).isNone
            | Val.vnull => true
            | _ => false)) = true →
          (getCol (normalize_datetime_columns df) j).all (fun v => v == Val.vnull) = true) := by
  have hj : j < df.cols.length := by
    have := List.getElem?_eq_some.mp hcol
    exact this.1
  have hcd : df.cols.getD j ("", Dtype.int64) = (name, Dtype.object) := by
    rw [List.getD_eq_getElem?_getD, hcol]
    rfl
  have hmain : getCol (normalize_datetime_columns df) j = (getCol df j).map coerceVal := by
    unfold getCol normalize_datetime_columns
    simp only [List.map_map]
    refine List.map_congr_left (fun r hr => ?_)
    have hrl : r.length = df.cols.length := by
      have := List.all_eq_true.mp hrect r hr
      simpa using this
    have hjb : j < r.length := by omega
    simp only [Function.comp]
    rw [getD_zipWith _ df.cols r j ("", Dtype.int64) Val.vnull Val.vnull hj hjb, hcd]
    simp
  refine ⟨hmain, fun hall => ?_⟩
  rw [hmain]
  rw [List.all_eq_true] at hall ⊢
  intro v hv
  rcases List.mem_map.mp hv with ⟨w, hw, hwv⟩
  have := coerce_textlike_null w (hall w hw)
  rw [← hwv, this]
  rfl

def dfTextW : DataFrame :=
  { cols := [("first_name", Dtype.object)],
    rows := [[Val.vstr "First_1"], [Val.vstr "user3@example.com"]] }

theorem C9_witness :
    getCol (normalize_datetime_columns dfTextW) 0 = (getCol dfTextW 0).map coerceVal
      ∧ (getCol (normalize_datetime_columns dfTextW) 0).all (fun v => v == Val.vnull) = true :=
  ⟨(C9_normalize_nulls_text dfTextW 0 "first_name" (by decide) (by decide)).1,
   (C9_normalize_nulls_text dfTextW 0 "first_name" (by decide) (by decide)).2 (by decide)⟩

def strStartsW (s pre : String) : Bool := listStartsWith s.data pre.data

def strEndsW (s suf : String) : Bool := listStartsWith s.data.reverse suf.data.reverse

/-- A raw data directory: the files under the raw root (paths relative to
it) together with the DataFrame that `read_file` would produce for each
of them.  Directories and unreadable files are represented by entries
whose frame is empty, matching `read_file`'s catch-and-return-empty. -/
def RawDir := List (String × DataFrame)

/-- Reading one path of the raw directory (deterministic `read_file`). -/
def readOf (raw : RawDir) (p : String) : DataFrame :=
  match raw.find? (fun f => f.1 == p) with
  | some f => f.2
  | none => emptyDF

/-- File selection of `load_to_bronze` (load_to_bronze.py lines 149-153):
for "events", every `*.jsonl` whose basename starts with the pattern;
otherwise every path containing all the entity's patterns as substrings. -/
def selectFiles (raw : RawDir) (entity : String) (patterns : List String) : List String :=
  if entity == "events" then
    (raw.map Prod.fst).filter (fun p =>
      strEndsW p ".jsonl" && strStartsW (basename p) (patterns.headD ""))
  else
    (raw.map Prod.fst).filter (fun p => patterns.all (fun pt => strContains p pt))

/-- The `entities` dict of `load_to_bronze` (load_to_bronze.py lines
128-140), in insertion order. -/
def bronzeEntities : List (String × List String) :=
  [("customers", ["customers.csv"]),
   ("products", ["products.csv"]),
   ("stores", ["stores.csv"]),
   ("suppliers", ["suppliers.csv"]),
   ("orders_header", ["orders_header", "order_dt"]),
   ("orders_lines", ["orders_lines"]),
   ("events", ["events_"]),
   ("sensors", ["sensors_", ".csv"]),
   ("exchange_rates", ["exchange_rates.xlsx"]),
   ("shipments", ["shipments.parquet"]),
   ("returns", ["returns_"])]

/-- Effects of the loader: the parquet files written under the lake's
bronze folder and the DuckDB tables, both keyed by name. -/
structure BronzeState where
  parquets : List (String × DataFrame)
  tables : List (String × DataFrame)
deriving DecidableEq, Repr

/-- Overwriting store update: `df.to_parquet` over an existing file and
`CREATE OR REPLACE TABLE` both replace the previous entry. -/
def setEntry (ts : List (String × DataFrame)) (k : String) (v : DataFrame) :
    List (String × DataFrame) :=
  if ts.any (fun t => t.1 == k) then ts.map (fun t => if t.1 == k then (k, v) else t)
  else ts ++ [(k, v)]

def lookupEntry (ts : List (String × DataFrame)) (k : String) : Option DataFrame :=
  (ts.find? (fun t => t.1 == k)).map Prod.snd

/-- One iteration of the entity loop of `load_to_bronze`
(load_to_bronze.py lines 149-172): skip when no source files were found
or the merged frame is empty, otherwise normalize, write the parquet and
create-or-replace the DuckDB table.  `workers` and `sched` are threaded
through to `load_entity`; its pooled read of a fixed raw directory is
deterministic, so `getD` only names the value of the successful run. -/
def processEntity (raw : RawDir) (workers : Nat) (sched : String → List Nat)
    (st : BronzeState) (e : String × List String) : BronzeState :=
  let files := selectFiles raw e.1 e.2
  if files.isEmpty then st
  else
    let df := (load_entity (readOf raw) files workers (sched e.1)).getD emptyDF
    if df.isEmptyDF then st
    else
      let ndf := normalize_datetime_columns df
      { parquets := setEntry st.parquets ("bronze/bronze_" ++ e.1 ++ ".parquet") ndf,
        tables := setEntry st.tables ("bronze_" ++ e.1) ndf }

/-- Embedding of `load_to_bronze` (load_to_bronze.py lines 122-183):
fold the entity loop over the entity dict, starting from the pre-existing
lake/database state. -/
def load_to_bronze_run (raw : RawDir) (workers : Nat) (sched : String → List Nat)
    (init : BronzeState) : BronzeState :=
  bronzeEntities.foldl (processEntity raw workers sched) init

theorem find?_key_append_single (ts : List (String × DataFrame)) (k k2 : String)
    (v : DataFrame) (h : (k == k2) = false) :
    List.find? (fun t => t.1 == k2) (ts ++ [(k, v)])
      = List.find? (fun t => t.1 == k2) ts := by
  induction ts with
  | nil => simp [List.find?, h]
  | cons t ts ih =>
    by_cases ht : (t.1 == k2) = true
    · simp [List.find?_cons, ht]
    · simp only [Bool.not_eq_true] at ht
      simp [List.find?_cons, ht, ih]

theorem find?_key_map_set (ts : List (String × DataFrame)) (k k2 : String)
    (v : DataFrame) (h : (k == k2) = false) :
    List.find? (fun t => t.1 == k2) (ts.map (fun t => if t.1 == k then (k, v) else t))
      = List.find? (fun t => t.1 == k2) ts := by
  induction ts with
  | nil => rfl
  | cons t ts ih =>
    simp only [List.map_cons]
    by_cases htk : (t.1 == k) = true
    · have hteq : t.1 = k := eq_of_beq htk
      have ht2 : (t.1 == k2) = false := by
        rw [hteq]
        exact h
      rw [if_pos htk]
      rw [List.find?_cons_of_neg _ (by simp [h]), List.find?_cons_of_neg _ (by simp [ht2])]
      exact ih
    · have htne : ¬ t.1 = k := by simpa using htk
      rw [if_neg htk]
      by_cases ht2 : (t.1 == k2) = true
      · rw [List.find?_cons_of_pos (p := fun (x : String × DataFrame) => x.1 == k2) _ ht2,
            List.find?_cons_of_pos (p := fun (x : String × DataFrame) => x.1 == k2) _ ht2]
      · rw [List.find?_cons_of_neg (p := fun (x : String × DataFrame) => x.1 == k2) _ ht2,
            List.find?_cons_of_neg (p := fun (x : String × DataFrame) => x.1 == k2) _ ht2]
        exact ih

theorem lookup_setEntry_ne (ts : List (String × DataFrame)) (k k2 : String)
    (v : DataFrame) (h : k ≠ k2) :
    lookupEntry (setEntry ts k v) k2 = lookupEntry ts k2 := by
  have hb : (k == k2) = false := by simp [h]
  unfold setEntry lookupEntry
  by_cases ha : (ts.any (fun t => t.1 == k)) = true
  · simp only [ha, if_true]
    rw [find?_key_map_set ts k k2 v hb]
  · simp only [Bool.not_eq_true] at ha
    simp only [ha, Bool.false_eq_true, if_false]
    rw [find?_key_append_single ts k k2 v hb]

theorem strAppend_left_cancel (s a b : String) (h : s ++ a = s ++ b) : a = b := by
  have hd : s.data ++ a.data = s.data ++ b.data := by
    have := congrArg String.data h
    simpa [String.data_append] using this
  have : a.data = b.data := List.append_cancel_left hd
  cases a
  cases b
  exact congrArg String.mk this

theorem strAppend_right_cancel (a b s : String) (h : a ++ s = b ++ s) : a = b := by
  have hd : a.data ++ s.data = b.data ++ s.data := by
    have := congrArg String.data h
    simpa [String.data_append] using this
  have : a.data = b.data := List.append_cancel_right hd
  cases a
  cases b
  exact congrArg String.mk this

/-- The skip condition of the entity loop: no source files, or an empty
merged frame. -/
def entitySkipped (raw : RawDir) (workers : Nat) (sched : String → List Nat)
    (e : String × List String) : Prop :=
  selectFiles raw e.1 e.2 = []
    ∨ ((load_entity (readOf raw) (selectFiles raw e.1 e.2) workers (sched e.1)).getD
          emptyDF).isEmptyDF = true

theorem processEntity_skip (raw : RawDir) (workers : Nat) (sched : String → List Nat)
    (st : BronzeState) (e : String × List String)
    (h : entitySkipped raw workers sched e) :
    processEntity raw workers sched st e = st := by
  unfold processEntity
  rcases h with h1 | h2
  · simp [h1]
  · by_cases hf : (selectFiles raw e.1 e.2).isEmpty = true
    · simp [hf]
    · simp [hf, h2]

theorem processEntity_frame (raw : RawDir) (workers : Nat) (sched : String → List Nat)
    (st : BronzeState) (e : String × List String) (name : String) (hne : e.1 ≠ name) :
    lookupEntry (processEntity raw workers sched st e).tables ("bronze_" ++ name)
        = lookupEntry st.tables ("bronze_" ++ name)
      ∧ lookupEntry (processEntity raw workers sched st e).parquets
            ("bronze/bronze_" ++ name ++ ".parquet")
        = lookupEntry st.parquets ("bronze/bronze_" ++ name ++ ".parquet") := by
  have hk1 : ("bronze_" ++ e.1 : String) ≠ "bronze_" ++ name := by
    intro hk
    exact hne (strAppend_left_cancel _ _ _ hk)
  have hk2 : ("bronze/bronze_" ++ e.1 ++ ".parquet" : String)
      ≠ "bronze/bronze_" ++ name ++ ".parquet" := by
    intro hk
    exact hne (strAppend_left_cancel _ _ _ (strAppend_right_cancel _ _ _ hk))
  unfold processEntity
  by_cases hf : (selectFiles raw e.1 e.2).isEmpty = true
  · simp [hf]
  · by_cases hdf : (((load_entity (readOf raw) (selectFiles raw e.1 e.2) workers
        (sched e.1)).getD emptyDF).isEmptyDF) = true
    · simp [hf, hdf]
    · simp only [hf, hdf, Bool.false_eq_true, if_false]
      exact ⟨lookup_setEntry_ne _ _ _ _ hk1, lookup_setEntry_ne _ _ _ _ hk2⟩

theorem fold_preserves_skipped (raw : RawDir) (workers : Nat) (sched : String → List Nat)
    (name : String) (es : List (String × List String)) (st : BronzeState)
    (hall : ∀ e ∈ es, e.1 = name → entitySkipped raw workers sched e) :
    lookupEntry (es.foldl (processEntity raw workers sched) st).tables ("bronze_" ++ name)
        = lookupEntry st.tables ("bronze_" ++ name)
      ∧ lookupEntry (es.foldl (processEntity raw workers sched) st).parquets
            ("bronze/bronze_" ++ name ++ ".parquet")
        = lookupEntry st.parquets ("bronze/bronze_" ++ name ++ ".parquet") := by
  induction es generalizing st with
  | nil => exact ⟨rfl, rfl⟩
  | cons e es ih =>
    have hrest : ∀ x ∈ es, x.1 = name → entitySkipped raw workers sched x :=
      fun x hx => hall x (List.mem_cons_of_mem e hx)
    simp only [List.foldl_cons]
    by_cases hn : e.1 = name
    · rw [processEntity_skip raw workers sched st e (hall e (List.mem_cons_self e es) hn)]
      exact ih st hrest
    · have hstep := processEntity_frame raw workers sched st e name hn
      have hrec := ih (processEntity raw workers sched st e) hrest
      exact ⟨hrec.1.trans hstep.1, hrec.2.trans hstep.2⟩

theorem keys_nodup_unique (l : List (String × List String))
    (h : (l.map Prod.fst).Nodup) (a b : String × List String)
    (ha : a ∈ l) (hb : b ∈ l) (hfst : a.1 = b.1) : a = b := by
  induction l with
  | nil => cases ha
  | cons x xs ih =>
    rw [List.map_cons, List.nodup_cons] at h
    cases ha with
    | head =>
      cases hb with
      | head => rfl
      | tail _ hbx =>
        exact absurd (hfst ▸ List.mem_map_of_mem Prod.fst hbx) h.1
    | tail _ hax =>
      cases hb with
      | head =>
        exact absurd (hfst ▸ List.mem_map_of_mem Prod.fst hax) h.1
      | tail _ hbx => exact ih h.2 hax hbx

/-- Claim C6: an entity whose file search yields nothing, or whose merged
frame is empty, is skipped by `load_to_bronze`: its parquet file and its
DuckDB table keep their pre-existing state, while the loop continues
through the remaining entities. -/
theorem C6_skipped_entity_untouched (raw : RawDir) (workers : Nat)
    (sched : String → List Nat) (init : BronzeState) (name : String)
    (patterns : List String) (hin : (name, patterns) ∈ bronzeEntities)
    (hskip : entitySkipped raw workers sched (name, patterns)) :
    lookupEntry (load_to_bronze_run raw workers sched init).tables ("bronze_" ++ name)
        = lookupEntry init.tables ("bronze_" ++ name)
      ∧ lookupEntry (load_to_bronze_run raw workers sched init).parquets
            ("bronze/bronze_" ++ name ++ ".parquet")
        = lookupEntry init.parquets ("bronze/bronze_" ++ name ++ ".parquet") := by
  have hnodup : (bronzeEntities.map Prod.fst).Nodup := by decide
  refine fold_preserves_skipped raw workers sched name bronzeEntities init ?_
  intro e he hname
  have : e = (name, patterns) :=
    keys_nodup_unique bronzeEntities hnodup e (name, patterns) he hin hname
  rw [this]
  exact hskip

def initW : BronzeState := { parquets := [], tables := [("bronze_customers", dfTextW)] }

theorem C6_witness :
    lookupEntry (load_to_bronze_run [] 8 (fun _ => []) initW).tables "bronze_customers"
        = lookupEntry initW.tables "bronze_customers"
      ∧ lookupEntry (load_to_bronze_run [] 8 (fun _ => []) initW).parquets
            "bronze/bronze_customers.parquet"
        = lookupEntry initW.parquets "bronze/bronze_customers.parquet" :=
  C6_skipped_entity_untouched [] 8 (fun _ => []) initW "customers" ["customers.csv"]
    (by decide) (Or.inl (by decide))

/-- One segment of a duckdb path glob: a literal component, `*`, or
`*.ext`. -/
inductive PatSeg where
  | lit (s : String)
  | wild
  | wildExt (e : String)
deriving DecidableEq, Repr

def segMatches : PatSeg → String → Bool
  | PatSeg.lit s, c => s == c
  | PatSeg.wild, _ => true
  | PatSeg.wildExt e, c => strEndsW c e

/-- Split a character list on a separator. -/
def splitSep (sep : Char) : List Char → List (List Char)
  | [] => [[]]
  | c :: rest =>
    match splitSep sep rest with
    | [] => [[]]
    | h :: t => if c == sep then [] :: h :: t else (c :: h) :: t

def pathComponents (p : String) : List String :=
  (splitSep '/' p.data).map String.mk

/-- A relative path matches a glob when its components match the glob's
segments one for one. -/
def pathMatches (pat : List PatSeg) (p : String) : Bool :=
  let comps := pathComponents p
  comps.length == pat.length && (List.zip pat comps).all (fun pc => segMatches pc.1 pc.2)

/-- The kind of duckdb loader applied to a bronze table in
1load_to_bronze.py (`load_csv`, `load_parquet`, `load_jsonl`,
`load_xlsx`). -/
inductive LoaderKind where
  | csvK
  | parquetK
  | jsonlK
  | xlsxK
deriving DecidableEq, Repr

/-- The `tasks` list of 1load_to_bronze.py (lines 98-110): table name,
loader, and source path pattern relative to the raw directory. -/
def scriptB_tasks : List (String × LoaderKind × List PatSeg) :=
  [("bronze_customers", LoaderKind.csvK, [PatSeg.lit "customers.csv"]),
   ("bronze_products", LoaderKind.csvK, [PatSeg.lit "products.csv"]),
   ("bronze_stores", LoaderKind.csvK, [PatSeg.lit "stores.csv"]),
   ("bronze_suppliers", LoaderKind.csvK, [PatSeg.lit "suppliers.csv"]),
   ("bronze_shipments", LoaderKind.parquetK, [PatSeg.lit "shipments.parquet"]),
   ("bronze_returns", LoaderKind.parquetK, [PatSeg.lit "returns_v1.parquet"]),
   ("bronze_orders_header", LoaderKind.csvK,
     [PatSeg.lit "orders", PatSeg.wild, PatSeg.wildExt ".csv"]),
   ("bronze_orders_lines", LoaderKind.csvK,
     [PatSeg.lit "orders", PatSeg.wild, PatSeg.wildExt ".csv"]),
   ("bronze_events", LoaderKind.jsonlK, [PatSeg.lit "events", PatSeg.wildExt ".jsonl"]),
   ("bronze_sensors", LoaderKind.csvK,
     [PatSeg.lit "sensors", PatSeg.wild, PatSeg.wild, PatSeg.wildExt ".csv"]),
   ("bronze_exchange_rates", LoaderKind.xlsxK, [PatSeg.lit "exchange_rates.xlsx"])]

/-- Contents of one bronze table of 1load_to_bronze.py: the union of the
files matching the task's glob, in directory order.  Each loader
(`read_csv_auto`, `read_parquet`, `read_json_auto`, the pandas Excel
path) is modelled by the per-file parse results recorded in the raw
directory, so the loader kind does not change the selected rows. -/
def scriptB_loadTable (raw : RawDir) (pat : List PatSeg) : DataFrame :=
  concatIgnoreIndex (((raw.map Prod.fst).filter (pathMatches pat)).map (readOf raw))

/-- The bronze tables created by running 1load_to_bronze.py. -/
def scriptB_tables (raw : RawDir) : List (String × DataFrame) :=
  scriptB_tasks.map (fun t => (t.1, scriptB_loadTable raw t.2.2))

/-- The glob assigned to a table name in the `tasks` list. -/
def scriptB_patOf (n : String) : List PatSeg :=
  match scriptB_tasks.find? (fun t => t.1 == n) with
  | some t => t.2.2
  | none => []

def hdrDF : DataFrame :=
  { cols := [("order_id", Dtype.int64)], rows := [[Val.vint 1]] }

def linDF : DataFrame :=
  { cols := [("order_id", Dtype.int64), ("line_number", Dtype.int64)],
    rows := [[Val.vint 1, Val.vint 1]] }

/-- A tiny raw directory of the shape produced by generate_data.py: one
orders-header partition file and one orders-lines partition file with
different contents. -/
def sampleRaw : RawDir :=
  [("orders/order_dt=2024-01-01/orders_header_2024-01-01.csv", hdrDF),
   ("orders/orders_lines/order_dt=2024-01-01/orders_lines_2024-01-01.csv", linDF)]

/-- Claim C4 counterexample: on a generator-shaped raw directory the two
scripts give `bronze_orders_lines` different contents —
load_to_bronze.py reads the orders_lines partition files, while
1load_to_bronze.py reads the orders header files through the glob
`orders/*/*.csv`. -/
theorem C4_counterexample :
    lookupEntry (load_to_bronze_run sampleRaw 8 (fun _ => [0]) initW).tables
        "bronze_orders_lines"
      ≠ lookupEntry (scriptB_tables sampleRaw) "bronze_orders_lines" := by
  decide

/-- Claim C4 (amended): the two loaders target the same collection of
bronze table names — a permutation of each other — even though the
contents they give those tables differ in general (see the orders-lines
counterexample). -/
theorem C4_amended_same_table_names :
    (bronzeEntities.map (fun e => "bronze_" ++ e.1)).Perm
      (scriptB_tasks.map (fun t => t.1)) := by
  decide

theorem find?_fst_map {α β : Type} (g : String × α → β) (l : List (String × α)) (n : String) :
    List.find? (fun x => x.1 == n) (l.map (fun t => (t.1, g t)))
      = (List.find? (fun t => t.1 == n) l).map (fun t => (t.1, g t)) := by
  induction l with
  | nil => rfl
  | cons t l ih =>
    simp only [List.map_cons]
    by_cases h : (t.1 == n) = true
    · rw [List.find?_cons_of_pos (p := fun (x : String × β) => x.1 == n) _ h,
          List.find?_cons_of_pos (p := fun (x : String × α) => x.1 == n) _ h]
      rfl
    · rw [List.find?_cons_of_neg (p := fun (x : String × β) => x.1 == n) _ h,
          List.find?_cons_of_neg (p := fun (x : String × α) => x.1 == n) _ h]
      exact ih

theorem lookup_scriptB_tables (raw : RawDir) (n : String) :
    lookupEntry (scriptB_tables raw) n
      = (List.find? (fun t => t.1 == n) scriptB_tasks).map
          (fun t => scriptB_loadTable raw t.2.2) := by
  unfold lookupEntry scriptB_tables
  rw [find?_fst_map (fun t => scriptB_loadTable raw t.2.2) scriptB_tasks n]
  cases List.find? (fun t => t.1 == n) scriptB_tasks with
  | none => rfl
  | some t => rfl

/-- Claim C10: in 1load_to_bronze.py the tables `bronze_orders_header`
and `bronze_orders_lines` are created from the identical glob
`orders/*/*.csv`, so for every raw directory the two tables get
identical contents. -/
theorem C10_orders_tables_identical (raw : RawDir) :
    lookupEntry (scriptB_tables raw) "bronze_orders_header"
      = lookupEntry (scriptB_tables raw) "bronze_orders_lines" := by
  rw [lookup_scriptB_tables, lookup_scriptB_tables]
  have h1 : List.find? (fun t => t.1 == "bronze_orders_header") scriptB_tasks
      = some ("bronze_orders_header", LoaderKind.csvK,
          [PatSeg.lit "orders", PatSeg.wild, PatSeg.wildExt ".csv"]) := by decide
  have h2 : List.find? (fun t => t.1 == "bronze_orders_lines") scriptB_tasks
      = some ("bronze_orders_lines", LoaderKind.csvK,
          [PatSeg.lit "orders", PatSeg.wild, PatSeg.wildExt ".csv"]) := by decide
  rw [h1, h2]
  rfl

/-- The kind of value a command-line flag of the repository carries. -/
inductive FlagKind where
  | inputDir
  | outputDir
  | seedFlag
  | dbFile
  | pathFlag
  | rowCount
  | scaleSel
  | workerCount
deriving DecidableEq, Repr

/-- `parse_args` of generate_data.py (lines 568-576). -/
def generate_data_flags : List (String × FlagKind) :=
  [("--out", FlagKind.outputDir),
   ("--seed", FlagKind.seedFlag),
   ("--orders", FlagKind.rowCount),
   ("--sensors_target", FlagKind.rowCount),
   ("--events", FlagKind.rowCount),
   ("--scale", FlagKind.scaleSel)]

/-- The argparse block of load_to_bronze.py (lines 187-195). -/
def load_to_bronze_flags : List (String × FlagKind) :=
  [("--raw", FlagKind.inputDir),
   ("--lake", FlagKind.outputDir),
   ("--manifest", FlagKind.dbFile),
   ("--workers", FlagKind.workerCount)]

/-- The argparse block of generate_data1.py (lines 80-87). -/
def generate_data1_flags : List (String × FlagKind) :=
  [("--output", FlagKind.outputDir),
   ("--customers", FlagKind.rowCount),
   ("--products", FlagKind.rowCount),
   ("--orders", FlagKind.rowCount),
   ("--events", FlagKind.rowCount)]

/-- The argparse block of schemas/schemas.py (`main`). -/
def schemas_flags : List (String × FlagKind) :=
  [("--out", FlagKind.outputDir),
   ("--seed", FlagKind.seedFlag)]

/-- Every flag accepted by any script of the repository (the remaining
scripts define no argparse parser). -/
def allScriptFlags : List (String × FlagKind) :=
  generate_data_flags ++ load_to_bronze_flags ++ generate_data1_flags ++ schemas_flags

/-- The flag kinds the claim allows: input directory, output directory,
random seed, filesystem paths, and the analytical database file. -/
def claimedFlagKinds : List FlagKind :=
  [FlagKind.inputDir, FlagKind.outputDir, FlagKind.seedFlag, FlagKind.dbFile,
   FlagKind.pathFlag]

/-- Claim C5 counterexample: generate_data.py accepts `--orders`, a
dataset-size flag, which is none of the claimed kinds (input directory,
output directory, seed, path, database file); so the scripts do accept
other kinds of command-line flags. -/
theorem C5_counterexample :
    ("--orders", FlagKind.rowCount) ∈ generate_data_flags
      ∧ claimedFlagKinds.contains FlagKind.rowCount = false := by
  decide

/-- Claim C5 (amended): every flag of every script is an input directory,
an output directory, a random seed, a path, the database file, a
dataset-size/row-count flag, the scale selector, or the worker count. -/
theorem C5_amended_flag_kinds :
    (allScriptFlags.all (fun f =>
      (claimedFlagKinds ++ [FlagKind.rowCount, FlagKind.scaleSel, FlagKind.workerCount]).contains
        f.2)) = true := by
  decide

/-- A filesystem as a flat list of (path, contents) entries. -/
abbrev FileMap := List (String × String)

/-- True when `p` lies strictly under the directory `dir`. -/
def underDir (dir p : String) : Bool := strStartsW p (dir ++ "/")

/-- Model of `shutil.rmtree(out)`: every entry at or under `out` is
removed. -/
def rmtreeModel (fs : FileMap) (dir : String) : FileMap :=
  fs.filter (fun e => !(underDir dir e.1 || e.1 == dir))

/-- Model of `out.exists()` on the flat filesystem. -/
def outExists (fs : FileMap) (dir : String) : Bool :=
  fs.any (fun e => underDir dir e.1 || e.1 == dir)

/-- Prelude plus writes of generate_data.py `main` (lines 578-587): if the
output directory exists it is deleted whole, then the run's files are
written. -/
def main_fs_run (fs : FileMap) (outDir : String) (writes : FileMap) : FileMap :=
  let fs1 := if outExists fs outDir then rmtreeModel fs outDir else fs
  fs1 ++ writes

theorem find?_append_of_none {α : Type} (q : α → Bool) (l1 l2 : List α)
    (h : List.find? q l1 = none) :
    List.find? q (l1 ++ l2) = List.find? q l2 := by
  induction l1 with
  | nil => rfl
  | cons a l1 ih =>
    by_cases ha : q a = true
    · rw [List.find?_cons_of_pos _ ha] at h
      cases h
    · rw [List.cons_append, List.find?_cons_of_neg _ ha]
      rw [List.find?_cons_of_neg _ ha] at h
      exact ih h

/-- Claim C8: when `main` runs, any path under the `--out` directory maps
afterwards to whatever this run wrote there (or nothing): no previously
stored file under the output path survives, because the whole tree is
deleted before any new data is written. -/
theorem C8_out_tree_cleared (fs : FileMap) (outDir : String) (writes : FileMap)
    (p : String) (hp : underDir outDir p = true) :
    List.find? (fun e => e.1 == p) (main_fs_run fs outDir writes)
      = List.find? (fun e => e.1 == p) writes := by
  unfold main_fs_run
  by_cases hex : outExists fs outDir = true
  · simp only [hex, if_true]
    refine find?_append_of_none _ _ _ ?_
    rw [List.find?_eq_none]
    intro e he hbe
    have hmem := List.mem_filter.mp he
    have hpe : e.1 = p := eq_of_beq hbe
    have : (underDir outDir e.1 || e.1 == outDir) = false := by
      have := hmem.2
      simp only [Bool.not_eq_true', Bool.not_or] at this ⊢
      simpa using this
    rw [hpe, hp] at this
    simp at this
  · have hex2 : outExists fs outDir = false := by
      simpa using hex
    simp only [hex2, Bool.false_eq_true, if_false]
    refine find?_append_of_none _ _ _ ?_
    rw [List.find?_eq_none]
    intro e he hbe
    have hpe : e.1 = p := eq_of_beq hbe
    have hfa := List.any_eq_false.mp hex2 e he
    rw [hpe] at hfa
    simp [hp] at hfa

def fsOldW : FileMap := [("out/old.txt", "stale"), ("elsewhere.txt", "kept")]

def writesW : FileMap := [("out/customers.csv", "fresh")]

theorem C8_witness :
    List.find? (fun e => e.1 == "out/old.txt") (main_fs_run fsOldW "out" writesW)
      = List.find? (fun e => e.1 == "out/old.txt") writesW :=
  C8_out_tree_cleared fsOldW "out" writesW "out/old.txt" (by decide)

inductive Scale where
  | full
  | small
deriving DecidableEq, Repr

/-- The files generate_data.py writes, identified structurally: dates are
day offsets from 2024-01-01 (the strings in the real paths are their
formatted forms), sensor files carry store id and month index. -/
inductive OutFile where
  | customersCsv
  | productsCsv
  | storesCsv
  | suppliersCsv
  | ordersHeaderCsv (day : Nat)
  | ordersLinesCsv (day : Nat)
  | eventsJsonl (day : Nat)
  | sensorsCsv (store : Nat) (month : Nat)
  | exchangeRatesXlsx
  | shipmentsParquet
  | returnsV1Parquet
  | returnsV2Parquet
  | returnsUpsertCsv
  | returnsDeleteCsv
deriving DecidableEq, Repr

def generate_customers_out : List OutFile := [OutFile.customersCsv]

def generate_products_out : List OutFile := [OutFile.productsCsv]

def generate_stores_out : List OutFile := [OutFile.storesCsv]

def generate_suppliers_out : List OutFile := [OutFile.suppliersCsv]

/-- The distinct `order_dt` values of one chunk of hourly orders starting
at hour offset `startHour` (generate_data.py lines 298-328). -/
def ordersChunkDates (startHour n : Nat) : List Nat :=
  ((List.range n).map (fun i => (startHour + i) / 24)).dedup

/-- Files written by `generate_orders_partitioned` (lines 272-403): one
header CSV and one lines CSV per distinct order date of each chunk.
`dupDates k` abstracts the seed-dependent extra dates introduced by the
duplicated rows of chunk `k` (their `order_dt` is shifted one day); they
only ever add partitions.  `chunk = 0` would loop forever in the source;
the model returns nothing for it and the theorems require `1 ≤ chunk`. -/
def generate_orders_out (total chunk : Nat) (dupDates : Nat → List Nat) : List OutFile :=
  if chunk == 0 then []
  else
    (List.range ((total + chunk - 1) / chunk)).flatMap (fun k =>
      let n := min chunk (total - k * chunk)
      let dates := (ordersChunkDates (k * chunk) n ++ dupDates k).dedup
      dates.flatMap (fun d => [OutFile.ordersHeaderCsv d, OutFile.ordersLinesCsv d]))

def generate_shipments_out : List OutFile := [OutFile.shipmentsParquet]

def generate_exchange_rates_out : List OutFile := [OutFile.exchangeRatesXlsx]

/-- One sensors CSV per store and month (generate_data.py lines 458-480). -/
def generate_sensors_out (stores months : Nat) : List OutFile :=
  (List.range stores).flatMap (fun s =>
    (List.range months).map (fun m => OutFile.sensorsCsv (s + 1) m))

/-- One events JSONL per day (generate_data.py lines 413-441). -/
def generate_events_out (days : Nat) : List OutFile :=
  (List.range days).map OutFile.eventsJsonl

def generate_returns_out : List OutFile :=
  [OutFile.returnsV1Parquet, OutFile.returnsV2Parquet,
   OutFile.returnsUpsertCsv, OutFile.returnsDeleteCsv]

/-- The argparse values of generate_data.py `parse_args`. -/
structure GenArgs where
  seed : Nat
  orders : Nat
  sensors_target : Nat
  events : Nat
  scale : Scale
deriving DecidableEq, Repr

def defaultArgs (seed : Nat) (scale : Scale) : GenArgs :=
  { seed := seed, orders := 1000000, sensors_target := 6000000,
    events := 2000000, scale := scale }

/-- Files written by `main` of generate_data.py (lines 578-634), in call
order.  The scale only rescales the volume targets; the events target and
sensors rows-per-file target change row counts, not which files exist
(30 event days, 12 sensor months, one file per store and month). -/
def main_out (args : GenArgs) (dupDates : Nat → List Nat) : List OutFile :=
  let orders_target :=
    match args.scale with
    | Scale.small => min 10000 args.orders
    | Scale.full => args.orders
  let stores_target :=
    match args.scale with
    | Scale.small => 200
    | Scale.full => 5000
  let chunk :=
    match args.scale with
    | Scale.full => 100000
    | Scale.small => 10000
  generate_customers_out ++ generate_products_out ++ generate_stores_out
    ++ generate_suppliers_out
    ++ generate_orders_out orders_target chunk dupDates
    ++ generate_shipments_out ++ generate_exchange_rates_out
    ++ generate_sensors_out stores_target 12
    ++ generate_events_out 30
    ++ generate_returns_out

theorem zero_mem_orders_dates (n : Nat) (hn : 1 ≤ n) (extra : List Nat) :
    0 ∈ (ordersChunkDates 0 n ++ extra).dedup := by
  rw [List.mem_dedup]
  refine List.mem_append_left _ ?_
  unfold ordersChunkDates
  rw [List.mem_dedup]
  refine List.mem_map.mpr ⟨0, List.mem_range.mpr hn, by simp⟩

theorem chunkCount_pos (total chunk : Nat) (ht : 1 ≤ total) (hc : 1 ≤ chunk) :
    0 < (total + chunk - 1) / chunk := by
  have h1 : 1 ≤ (total + chunk - 1) / chunk := by
    rw [Nat.le_div_iff_mul_le (by omega)]
    omega
  omega

theorem mem_orders_out_zero (total chunk : Nat) (dupDates : Nat → List Nat)
    (ht : 1 ≤ total) (hc : 1 ≤ chunk) :
    OutFile.ordersHeaderCsv 0 ∈ generate_orders_out total chunk dupDates
      ∧ OutFile.ordersLinesCsv 0 ∈ generate_orders_out total chunk dupDates := by
  have hc0 : (chunk == 0) = false := by
    simp only [beq_eq_false_iff_ne, ne_eq]
    omega
  unfold generate_orders_out
  rw [hc0]
  simp only [Bool.false_eq_true, if_false]
  have hn : 1 ≤ min chunk (total - 0 * chunk) := by
    simp only [Nat.zero_mul, Nat.sub_zero]
    omega
  have hk : (0 : Nat) ∈ List.range ((total + chunk - 1) / chunk) :=
    List.mem_range.mpr (chunkCount_pos total chunk ht hc)
  have hd : (0 : Nat) ∈ (ordersChunkDates (0 * chunk) (min chunk (total - 0 * chunk))
      ++ dupDates 0).dedup := by
    simpa using zero_mem_orders_dates (min chunk (total - 0 * chunk)) hn (dupDates 0)
  constructor
  · exact List.mem_flatMap.mpr ⟨0, hk,
      List.mem_flatMap.mpr ⟨0, hd, by simp⟩⟩
  · exact List.mem_flatMap.mpr ⟨0, hk,
      List.mem_flatMap.mpr ⟨0, hd, by simp⟩⟩

theorem mem_events_out_zero (days : Nat) (hd : 1 ≤ days) :
    OutFile.eventsJsonl 0 ∈ generate_events_out days :=
  List.mem_map.mpr ⟨0, List.mem_range.mpr hd, rfl⟩

theorem mem_sensors_out_first (stores months : Nat) (hs : 1 ≤ stores) (hm : 1 ≤ months) :
    OutFile.sensorsCsv 1 0 ∈ generate_sensors_out stores months :=
  List.mem_flatMap.mpr ⟨0, List.mem_range.mpr hs,
    List.mem_map.mpr ⟨0, List.mem_range.mpr hm, rfl⟩⟩

/-- Claim C7: for every seed and both scale settings (other flags at their
defaults), `main` of generate_data.py writes one dataset per listed
entity: the four dimension CSVs, date-partitioned orders header and
lines CSVs, date-partitioned events JSONL files, per store-and-month
sensors CSVs, the exchange-rates XLSX, the shipments parquet, and the
returns v1/v2 parquets with the upsert and delete CSVs. -/
theorem C7_main_writes_all_entities (seed : Nat) (scale : Scale)
    (dupDates : Nat → List Nat) :
    OutFile.customersCsv ∈ main_out (defaultArgs seed scale) dupDates
      ∧ OutFile.productsCsv ∈ main_out (defaultArgs seed scale) dupDates
      ∧ OutFile.storesCsv ∈ main_out (defaultArgs seed scale) dupDates
      ∧ OutFile.suppliersCsv ∈ main_out (defaultArgs seed scale) dupDates
      ∧ OutFile.ordersHeaderCsv 0 ∈ main_out (defaultArgs seed scale) dupDates
      ∧ OutFile.ordersLinesCsv 0 ∈ main_out (defaultArgs seed scale) dupDates
      ∧ OutFile.eventsJsonl 0 ∈ main_out (defaultArgs seed scale) dupDates
      ∧ OutFile.sensorsCsv 1 0 ∈ main_out (defaultArgs seed scale) dupDates
      ∧ OutFile.exchangeRatesXlsx ∈ main_out (defaultArgs seed scale) dupDates
      ∧ OutFile.shipmentsParquet ∈ main_out (defaultArgs seed scale) dupDates
      ∧ OutFile.returnsV1Parquet ∈ main_out (defaultArgs seed scale) dupDates
      ∧ OutFile.returnsV2Parquet ∈ main_out (defaultArgs seed scale) dupDates
      ∧ OutFile.returnsUpsertCsv ∈ main_out (defaultArgs seed scale) dupDates
      ∧ OutFile.returnsDeleteCsv ∈ main_out (defaultArgs seed scale) dupDates := by
  have horders : OutFile.ordersHeaderCsv 0 ∈ main_out (defaultArgs seed scale) dupDates
      ∧ OutFile.ordersLinesCsv 0 ∈ main_out (defaultArgs seed scale) dupDates := by
    cases scale with
    | full =>
      have h := mem_orders_out_zero 1000000 100000 dupDates (by omega) (by omega)
      unfold main_out defaultArgs
      simp only [List.mem_append]
      exact ⟨Or.inl (Or.inl (Or.inl (Or.inl (Or.inl (Or.inr h.1))))),
             Or.inl (Or.inl (Or.inl (Or.inl (Or.inl (Or.inr h.2)))))⟩
    | small =>
      have h := mem_orders_out_zero (min 10000 1000000) 10000 dupDates (by omega) (by omega)
      unfold main_out defaultArgs
      simp only [List.mem_append]
      exact ⟨Or.inl (Or.inl (Or.inl (Or.inl (Or.inl (Or.inr h.1))))),
             Or.inl (Or.inl (Or.inl (Or.inl (Or.inl (Or.inr h.2)))))⟩
  have hsens : OutFile.sensorsCsv 1 0 ∈ main_out (defaultArgs seed scale) dupDates := by
    cases scale with
    | full =>
      have h := mem_sensors_out_first 5000 12 (by omega) (by omega)
      unfold main_out defaultArgs
      simp only [List.mem_append]
      exact Or.inl (Or.inl (Or.inr h))
    | small =>
      have h := mem_sensors_out_first 200 12 (by omega) (by omega)
      unfold main_out defaultArgs
      simp only [List.mem_append]
      exact Or.inl (Or.inl (Or.inr h))
  have hev : OutFile.eventsJsonl 0 ∈ main_out (defaultArgs seed scale) dupDates := by
    have h := mem_events_out_zero 30 (by omega)
    cases scale with
    | full =>
      unfold main_out defaultArgs
      simp only [List.mem_append]
      exact Or.inl (Or.inr h)
    | small =>
      unfold main_out defaultArgs
      simp only [List.mem_append]
      exact Or.inl (Or.inr h)
  have hsimple : ∀ x : OutFile,
      x ∈ generate_customers_out ∨ x ∈ generate_products_out
        ∨ x ∈ generate_stores_out ∨ x ∈ generate_suppliers_out
        ∨ x ∈ generate_shipments_out ∨ x ∈ generate_exchange_rates_out
        ∨ x ∈ generate_returns_out →
      x ∈ main_out (defaultArgs seed scale) dupDates := by
    intro x hx
    cases scale with
    | full =>
      unfold main_out defaultArgs
      simp only [List.mem_append]
      rcases hx with h | h | h | h | h | h | h
      · exact Or.inl (Or.inl (Or.inl (Or.inl (Or.inl (Or.inl (Or.inl (Or.inl (Or.inl h))))))))
      · exact Or.inl (Or.inl (Or.inl (Or.inl (Or.inl (Or.inl (Or.inl (Or.inl (Or.inr h))))))))
      · exact Or.inl (Or.inl (Or.inl (Or.inl (Or.inl (Or.inl (Or.inl (Or.inr h)))))))
      · exact Or.inl (Or.inl (Or.inl (Or.inl (Or.inl (Or.inl (Or.inr h))))))
      · exact Or.inl (Or.inl (Or.inl (Or.inl (Or.inr h))))
      · exact Or.inl (Or.inl (Or.inl (Or.inr h)))
      · exact Or.inr h
    | small =>
      unfold main_out defaultArgs
      simp only [List.mem_append]
      rcases hx with h | h | h | h | h | h | h
      · exact Or.inl (Or.inl (Or.inl (Or.inl (Or.inl (Or.inl (Or.inl (Or.inl (Or.inl h))))))))
      · exact Or.inl (Or.inl (Or.inl (Or.inl (Or.inl (Or.inl (Or.inl (Or.inl (Or.inr h))))))))
      · exact Or.inl (Or.inl (Or.inl (Or.inl (Or.inl (Or.inl (Or.inl (Or.inr h)))))))
      · exact Or.inl (Or.inl (Or.inl (Or.inl (Or.inl (Or.inl (Or.inr h))))))
      · exact Or.inl (Or.inl (Or.inl (Or.inl (Or.inr h))))
      · exact Or.inl (Or.inl (Or.inl (Or.inr h)))
      · exact Or.inr h
  refine ⟨hsimple _ (by simp [generate_customers_out]),
          hsimple _ (by simp [generate_products_out]),
          hsimple _ (by simp [generate_stores_out]),
          hsimple _ (by simp [generate_suppliers_out]),
          horders.1, horders.2, hev, hsens,
          hsimple _ (by simp [generate_exchange_rates_out]),
          hsimple _ (by simp [generate_shipments_out]),
          hsimple _ (by simp [generate_returns_out]),
          hsimple _ (by simp [generate_returns_out]),
          hsimple _ (by simp [generate_returns_out]),
          hsimple _ (by simp [generate_returns_out])⟩
